import Mathlib

/-
  Verification development for `iphone_document_scanner.py`.

  The Python source is shallowly embedded below.  Pure computations of the
  source (filename construction, representation selection, the probe loops,
  the save/convert batch loops) become Lean functions; the platform
  collaborators (PDF parsing, rendering, image encoding, file writing) are
  function fields of an `Env` record, and every file write performed by the
  embedded code is recorded explicitly in an effect trace.  NSData values are
  `List Nat`; a `[]` value plays the role of both `None` and an empty `NSData`
  (both are falsy in Python, and the source only ever tests truthiness).
-/

namespace IphoneScan

/-- `OutputFormat` enum of the source (`pdf`, `png`, `jpeg`, `tiff`). -/
inductive OutputFormat
  | pdf
  | png
  | jpeg
  | tiff
deriving DecidableEq

/-- `OutputFormat.value`: the string value of each enum member. -/
def OutputFormat.value : OutputFormat → String
  | .pdf => "pdf"
  | .png => "png"
  | .jpeg => "jpeg"
  | .tiff => "tiff"

/-- The `NSBitmapImageFileType` constants used by the source
(`NSBitmapImageFileTypePNG`, `...JPEG`, `...TIFF`). -/
inductive FileType
  | png
  | jpeg
  | tiff
deriving DecidableEq

/-- The configuration fields of class `Config` that the capture/save/convert
logic reads.  `filenameStem` models `config.filename_prefix`. -/
structure Config where
  output_dir : String
  filenameStem : String
  output_formats : List OutputFormat
  jpeg_quality : ℚ
  resolution_scale : ℚ
deriving DecidableEq

/-- One stored representation of an image (an `NSImageRep`).  `isBitmap`
models `rep.isKindOfClass_(NSBitmapImageRep)`; `tag` stands for the object
identity, so two distinct representations with equal pixel counts can be
told apart. -/
structure Rep where
  isBitmap : Bool
  pixelsWide : Nat
  pixelsHigh : Nat
  tag : Nat
deriving DecidableEq

/-- `pixels = rep.pixelsWide() * rep.pixelsHigh()` from `_getBestImageRep`. -/
def Rep.area (r : Rep) : Nat := r.pixelsWide * r.pixelsHigh

/-- An `NSSize` (point units; `CGFloat` modelled by `ℚ`). -/
structure NSSize where
  width : ℚ
  height : ℚ
deriving DecidableEq

/-- An `NSImage`: the size set at `initWithSize_` plus its stored
representations. -/
structure NSImage where
  size : NSSize
  reps : List Rep
deriving DecidableEq

/-- A PDF page: the media-box bounds returned by `page.boundsForBox_(0)`. -/
structure PdfPage where
  width : ℚ
  height : ℚ
deriving DecidableEq

/-- NSData contents.  `[]` models both `None` and empty data (both falsy). -/
abbrev Bytes := List Nat

/-- The inbound pasteboard: `types()` and `dataForType_`. -/
structure Pasteboard where
  types : List String
  dataForType : String → Bytes

/-- The platform collaborators invoked by the source, as abstract functions:
* `parsePdf`  — `PDFDocument.alloc().initWithData_` (`none` = nil document);
* `renderReps` — the representations an `NSImage` holds after the
  `lockFocus`/`drawWithBox_`/`unlockFocus` sequence for a page at a scale;
* `decodeImage` — `NSImage.alloc().initWithData_`;
* `tiffRep` — `image.TIFFRepresentation()` (`[]` = nil);
* `imageRepFromData` — `NSBitmapImageRep.imageRepWithData_`;
* `encode` — `rep.representationUsingType_properties_` (the `Option ℚ` is
  the `NSImageCompressionFactor` entry of the properties dictionary, `none`
  when the dictionary is empty; `[]` result = nil/empty data);
* `writeFile` — success of `data.writeToFile_atomically_(path, True)`. -/
structure Env where
  parsePdf : Bytes → Option (List PdfPage)
  renderReps : PdfPage → ℚ → List Rep
  decodeImage : Bytes → Option NSImage
  tiffRep : NSImage → Bytes
  imageRepFromData : Bytes → Option Rep
  encode : FileType → Option ℚ → Rep → Bytes
  writeFile : String → Bytes → Bool

/-- An observable side effect: a file-write attempt with the bytes handed to
`writeToFile_atomically_`. -/
inductive Effect
  | fileWrite (path : String) (bytes : Bytes)
deriving DecidableEq

/-- The capture state held by the view controller: `captured_data` and
`captured_images`. -/
structure CaptureState where
  captured_data : Option Bytes
  captured_images : List NSImage
deriving DecidableEq

/-- Python truthiness of `self.captured_data` (`None` and empty data are
falsy). -/
def isTruthy : Option Bytes → Bool
  | none => false
  | some d => !d.isEmpty

/-- Decimal digits of a natural number, least significant last — the decimal
rendering used by Python string formatting. -/
def digitChar (d : Nat) : Char := Char.ofNat (48 + d)

/-- Decimal digit list, fuelled; `fuel` bounds the digit count (any
`fuel > n` is enough, since a number has at most `n + 1` digits). -/
def natDigitsAux : Nat → Nat → List Char
  | 0, _ => []
  | fuel + 1, n =>
    if n < 10 then [digitChar n]
    else natDigitsAux fuel (n / 10) ++ [digitChar (n % 10)]

/-- Decimal digit list of `n`. -/
def natDigits (n : Nat) : List Char := natDigitsAux (n + 1) n

/-- `f"{page_num:02d}"`: decimal rendering zero-padded to width at least 2. -/
def pad2 (n : Nat) : String :=
  ⟨if n < 10 then '0' :: natDigits n else natDigits n⟩

/-- Whole-document artifact path:
`config.output_dir / f"{config.filename_prefix}_{timestamp}.pdf"`. -/
def docFilename (cfg : Config) (ts : String) : String :=
  cfg.output_dir ++ "/" ++ cfg.filenameStem ++ "_" ++ ts ++ ".pdf"

/-- Per-page artifact path:
`config.output_dir / f"{config.filename_prefix}_{timestamp}_page{n:02d}.{ext}"`. -/
def pageFilename (cfg : Config) (ts : String) (n : Nat) (ext : String) : String :=
  cfg.output_dir ++ "/" ++ cfg.filenameStem ++ "_" ++ ts ++ "_page" ++ pad2 n ++ "." ++ ext

/-- One step of the scan in `_getBestImageRep`: the accumulator is the pair
`(best_rep, max_pixels)`, replaced only on a strictly larger pixel count of a
bitmap representation. -/
def bestStep (acc : Option Rep × Nat) (rep : Rep) : Option Rep × Nat :=
  if rep.isBitmap then
    if rep.pixelsWide * rep.pixelsHigh > acc.2 then
      (some rep, rep.pixelsWide * rep.pixelsHigh)
    else acc
  else acc

/-- `_getBestImageRep` of the source: `None` for a missing image, otherwise
the `(None, 0)`-seeded scan of the representation list. -/
def getBestImageRep : Option NSImage → Option Rep
  | none => none
  | some image => (image.reps.foldl bestStep (none, 0)).1

/-- The AppKit constant `NSPasteboardTypePDF` (its macOS value). -/
def NSPasteboardTypePDF : String := "com.adobe.pdf"

/-- The AppKit constant `NSPasteboardTypeTIFF` (its macOS value). -/
def NSPasteboardTypeTIFF : String := "public.tiff"

/-- The AppKit constant `NSPasteboardTypePNG` (its macOS value). -/
def NSPasteboardTypePNG : String := "public.png"

/-- The prioritized PDF alias list
`['com.adobe.pdf', NSPasteboardTypePDF, 'public.pdf']`. -/
def pdfTypes : List String := ["com.adobe.pdf", NSPasteboardTypePDF, "public.pdf"]

/-- The prioritized raster-image type list of the fallback branch. -/
def imageTypes : List String :=
  [NSPasteboardTypeTIFF, NSPasteboardTypePNG, "public.tiff", "public.png",
   "public.jpeg", "public.image"]

/-- The PDF probe loop (lines 379-385): scan the alias list in order; fetch
only aliases present among the pasteboard types; stop at the first non-empty
fetch.  Returns the final `pdf_data` value (`[]` when nothing non-empty was
found) and the list of aliases actually fetched via `dataForType_`, in
order. -/
def probeLoop (pb : Pasteboard) : List String → Bytes × List String
  | [] => ([], [])
  | t :: rest =>
    if t ∈ pb.types then
      let d := pb.dataForType t
      if d.isEmpty then
        let r := probeLoop pb rest
        (r.1, t :: r.2)
      else (d, [t])
    else probeLoop pb rest

/-- The raster-image fallback loop (lines 462-483): every present type is
fetched; every non-empty fetch that decodes is appended to the page list.
Returns the accumulated images and the fetched types. -/
def imageProbe (env : Env) (pb : Pasteboard) : List NSImage × List String :=
  imageTypes.foldl (fun acc imgType =>
    if imgType ∈ pb.types then
      let d := pb.dataForType imgType
      if d.isEmpty then (acc.1, acc.2 ++ [imgType])
      else
        match env.decodeImage d with
        | some image => (acc.1 ++ [image], acc.2 ++ [imgType])
        | none => (acc.1, acc.2 ++ [imgType])
    else acc) ([], [])

/-- Rendering one PDF page (lines 404-431 and 669-690): the image is created
with `initWithSize_(NSMakeSize(bounds.width * scale, bounds.height * scale))`
— no rounding is applied by the source — and its representations are whatever
the platform drawing produces. -/
def renderPdfPage (env : Env) (scale : ℚ) (page : PdfPage) : NSImage :=
  { size := { width := page.width * scale, height := page.height * scale },
    reps := env.renderReps page scale }

/-- Outcome of `readSelectionFromPasteboard_`: the returned flag, the new
capture state, the file writes performed, and the pasteboard types fetched. -/
structure CaptureOutcome where
  success : Bool
  state : CaptureState
  effects : List Effect
  fetched : List String
deriving DecidableEq

/-- `readSelectionFromPasteboard_` (lines 346-499).  The capture state is
reset before probing (lines 369-371), so the prior state `st` is never
consulted.  `ts` is the timestamp `_saveRawPDF` would stamp on the raw-PDF
fallback file.  On the degraded path (PDF bytes present but
`PDFDocument.initWithData_` returns nil) the source calls `_saveRawPDF`,
which writes the raw bytes to disk (lines 442-445, 522-537). -/
def readSelectionFromPasteboard (env : Env) (cfg : Config) (ts : String)
    (st : CaptureState) (pb : Pasteboard) : CaptureOutcome :=
  let pr := probeLoop pb pdfTypes
  if pr.1.isEmpty then
    let ip := imageProbe env pb
    { success := !ip.1.isEmpty,
      state := { captured_data := none, captured_images := ip.1 },
      effects := [],
      fetched := pr.2 ++ ip.2 }
  else
    match env.parsePdf pr.1 with
    | some pages =>
      { success := true,
        state := { captured_data := some pr.1,
                   captured_images := pages.map (renderPdfPage env cfg.resolution_scale) },
        effects := [],
        fetched := pr.2 }
    | none =>
      { success := true,
        state := { captured_data := some pr.1, captured_images := [] },
        effects := [Effect.fileWrite (docFilename cfg ts) pr.1],
        fetched := pr.2 }

/-- The `type_map` dictionary of `_saveImageRep`; `OutputFormat.PDF` is
absent, so looking it up raises `KeyError` (modelled as `none`). -/
def typeMap : OutputFormat → Option FileType
  | .png => some FileType.png
  | .jpeg => some FileType.jpeg
  | .tiff => some FileType.tiff
  | .pdf => none

/-- `_saveImageRep` (lines 797-830).  A missing argument returns `False`
before anything happens; `type_map[format]` raises `KeyError` for the PDF
kind (`Except.error ()`); otherwise the representation is encoded — with the
compression factor set only for JPEG — and written.  The result is the Python
return value paired with the write attempts performed. -/
def saveImageRep (env : Env) (cfg : Config) :
    Option Rep → Option String → Option OutputFormat →
      Except Unit (Bool × List Effect)
  | some rep, some filepath, some format =>
    match typeMap format with
    | none => Except.error ()
    | some ft =>
      let properties : Option ℚ :=
        if format = OutputFormat.jpeg then some cfg.jpeg_quality else none
      let data := env.encode ft properties rep
      if data.isEmpty then Except.ok (false, [])
      else Except.ok (env.writeFile filepath data, [Effect.fileWrite filepath data])
  | _, _, _ => Except.ok (false, [])

/-- The body of the inner format loop of `saveAllDocuments_` (lines 608-617)
for one format: `continue` on PDF, otherwise build the page filename and call
`_saveImageRep`, keeping the path only when it returned `True`. -/
def formatStep (env : Env) (cfg : Config) (ts : String) (i : Nat) (rep : Rep)
    (fmt : OutputFormat) : Except Unit (List String × List Effect) :=
  if fmt = OutputFormat.pdf then Except.ok ([], [])
  else do
    let filepath := pageFilename cfg ts (i + 1) fmt.value
    let r ← saveImageRep env cfg (some rep) (some filepath) (some fmt)
    pure (if r.1 then [filepath] else [], r.2)

/-- Appending one batch item's contribution to the running
`(files_saved, effects)` accumulator. -/
def accumStep {α : Type} (g : α → Except Unit (List String × List Effect))
    (acc : List String × List Effect) (x : α) :
    Except Unit (List String × List Effect) := do
  let r ← g x
  pure (acc.1 ++ r.1, acc.2 ++ r.2)

/-- A batch loop: run `g` over the list in order, concatenating the saved
paths and effects; an uncaught exception aborts the loop. -/
def runBatch {α : Type} (g : α → Except Unit (List String × List Effect))
    (l : List α) : Except Unit (List String × List Effect) :=
  l.foldlM (accumStep g) ([], [])

/-- One page of the save loop (lines 600-617): select the best
representation; when none exists the page contributes nothing; otherwise run
the format loop. -/
def savePage (env : Env) (cfg : Config) (ts : String) (i : Nat)
    (image : NSImage) : Except Unit (List String × List Effect) :=
  match getBestImageRep (some image) with
  | none => Except.ok ([], [])
  | some bestRep => runBatch (formatStep env cfg ts i bestRep) cfg.output_formats

/-- The save loop step on an `enumerate` pair. -/
def pageStep (env : Env) (cfg : Config) (ts : String) (p : Nat × NSImage) :
    Except Unit (List String × List Effect) :=
  savePage env cfg ts p.1 p.2

/-- The PDF branch of `saveAllDocuments_` (lines 591-597): write the raw
captured bytes when present (truthy) and PDF is among the requested
formats. -/
def pdfSaveStep (env : Env) (cfg : Config) (ts : String) (st : CaptureState) :
    List String × List Effect :=
  match st.captured_data with
  | none => ([], [])
  | some d =>
    if !d.isEmpty && cfg.output_formats.contains OutputFormat.pdf then
      let p := docFilename cfg ts
      if env.writeFile p d then ([p], [Effect.fileWrite p d])
      else ([], [Effect.fileWrite p d])
    else ([], [])

/-- What a save or convert invocation reports: the `files_saved` list, the
final status-label text (`none` when the label is left untouched), and the
write attempts. -/
structure SaveOutcome where
  files_saved : List String
  status : Option String
  effects : List Effect
deriving DecidableEq

/-- `saveAllDocuments_` (lines 569-631).  With nothing captured it only logs
a warning.  Otherwise: one timestamp `ts` is taken for the whole invocation,
the raw PDF is written first when requested, then every page is processed in
order; the status label reports the count of files written.  An exception
escaping the loop (never the case, see the C10 theorem) aborts the
invocation. -/
def saveAllDocuments (env : Env) (cfg : Config) (ts : String)
    (st : CaptureState) : Except Unit SaveOutcome :=
  if st.captured_images.isEmpty && !isTruthy st.captured_data then
    Except.ok { files_saved := [], status := none, effects := [] }
  else do
    let pdfPart := pdfSaveStep env cfg ts st
    let pagePart ← runBatch (pageStep env cfg ts) st.captured_images.enum
    let files := pdfPart.1 ++ pagePart.1
    pure { files_saved := files,
           status := some ("Saved " ++ toString files.length ++ " file(s)"),
           effects := pdfPart.2 ++ pagePart.2 }

/-- One page of `convertPdfToPng_` (lines 666-718): re-render the page at the
configured scale, pick the best representation (falling back to a
representation decoded from `TIFFRepresentation()`), encode it as PNG with an
empty properties dictionary, and write it. -/
def convertPage (env : Env) (cfg : Config) (ts : String) (i : Nat)
    (page : PdfPage) : List String × List Effect :=
  let image := renderPdfPage env cfg.resolution_scale page
  let bestRep :=
    match getBestImageRep (some image) with
    | some r => some r
    | none =>
      let d := env.tiffRep image
      if d.isEmpty then none else env.imageRepFromData d
  match bestRep with
  | none => ([], [])
  | some rep =>
    let filepath := pageFilename cfg ts (i + 1) "png"
    let data := env.encode FileType.png none rep
    if data.isEmpty then ([], [])
    else if env.writeFile filepath data then
      ([filepath], [Effect.fileWrite filepath data])
    else ([], [Effect.fileWrite filepath data])

/-- `convertPdfToPng_` (lines 633-738): refuse without captured PDF bytes;
refuse when the bytes do not parse; otherwise convert every page in order
under a single timestamp and report the count of converted pages. -/
def convertPdfToPng (env : Env) (cfg : Config) (ts : String)
    (st : CaptureState) : SaveOutcome :=
  match st.captured_data with
  | none => { files_saved := [], status := some "No PDF data available for conversion",
              effects := [] }
  | some d =>
    if d.isEmpty then
      { files_saved := [], status := some "No PDF data available for conversion",
        effects := [] }
    else
      match env.parsePdf d with
      | none =>
        { files_saved := [], status := some "Error: Could not process PDF",
          effects := [] }
      | some pages =>
        let r := pages.enum.foldl (fun acc p =>
          let c := convertPage env cfg ts p.1 p.2
          (acc.1 ++ c.1, acc.2 ++ c.2)) (([], []) : List String × List Effect)
        if r.1.isEmpty then
          { files_saved := r.1, status := some "Error: No pages could be converted",
            effects := r.2 }
        else
          { files_saved := r.1,
            status := some ("Successfully converted " ++ toString r.1.length ++
              " page(s) to PNG"),
            effects := r.2 }

/-- Extract the value of an exception-free result. -/
def okValue {ε α : Type} (d : α) : Except ε α → α
  | Except.ok v => v
  | Except.error _ => d

/-- Paths contributed by one page of the save loop. -/
def pageFiles (env : Env) (cfg : Config) (ts : String) (p : Nat × NSImage) :
    List String :=
  (okValue ([], []) (pageStep env cfg ts p)).1

/-- Write attempts contributed by one page of the save loop. -/
def pageEffects (env : Env) (cfg : Config) (ts : String) (p : Nat × NSImage) :
    List Effect :=
  (okValue ([], []) (pageStep env cfg ts p)).2

/-- `max_pixels` over the bitmap representations of a list (0 when there is
none). -/
def maxBitmapArea : List Rep → Nat
  | [] => 0
  | r :: rest =>
    if r.isBitmap then max (Rep.area r) (maxBitmapArea rest) else maxBitmapArea rest

/-- The probe predicate: the alias is present among the pasteboard types and
fetches non-empty bytes. -/
def hitType (pb : Pasteboard) (u : String) : Bool :=
  decide (u ∈ pb.types) && !(pb.dataForType u).isEmpty

theorem exceptOkBind {ε α β : Type} (x : α) (f : α → Except ε β) :
    (Except.ok x : Except ε α) >>= f = f x := rfl

theorem exceptErrBind {ε α β : Type} (e : ε) (f : α → Except ε β) :
    (Except.error e : Except ε α) >>= f = Except.error e := rfl

theorem runBatch_shift {α : Type} (g : α → Except Unit (List String × List Effect))
    (l : List α) (acc : List String × List Effect) :
    l.foldlM (accumStep g) acc =
      Except.map (fun r => (acc.1 ++ r.1, acc.2 ++ r.2)) (runBatch g l) := by
  induction l generalizing acc with
  | nil => simp [runBatch, Except.map, pure, Except.pure]
  | cons x l ih =>
    rw [show runBatch g (x :: l) = List.foldlM (accumStep g) ([], []) (x :: l) from rfl,
      List.foldlM_cons, List.foldlM_cons]
    cases hg : g x with
    | error e =>
      have h1 : accumStep g acc x = Except.error e := by simp [accumStep, hg, exceptErrBind]
      have h2 : accumStep g ([], []) x = Except.error e := by simp [accumStep, hg, exceptErrBind]
      rw [h1, h2]
      simp [exceptErrBind, Except.map]
    | ok v =>
      have h1 : accumStep g acc x = Except.ok (acc.1 ++ v.1, acc.2 ++ v.2) := by
        simp [accumStep, hg, exceptOkBind]
      have h2 : accumStep g ([], []) x = Except.ok (v.1, v.2) := by
        simp [accumStep, hg, exceptOkBind]
      rw [h1, h2, exceptOkBind, exceptOkBind, ih, ih]
      cases runBatch g l with
      | error e => rfl
      | ok r => simp [Except.map, List.append_assoc]

theorem runBatch_flat {α : Type} (g : α → Except Unit (List String × List Effect))
    (l : List α) (h : ∀ x ∈ l, ∃ v, g x = Except.ok v) :
    runBatch g l =
      Except.ok (l.flatMap (fun x => (okValue ([], []) (g x)).1),
        l.flatMap (fun x => (okValue ([], []) (g x)).2)) := by
  induction l with
  | nil => rfl
  | cons x l ih =>
    obtain ⟨v, hv⟩ := h x (by simp)
    have hl := ih (fun y hy => h y (by simp [hy]))
    rw [show runBatch g (x :: l) = List.foldlM (accumStep g) ([], []) (x :: l) from rfl,
      List.foldlM_cons]
    have h2 : accumStep g ([], []) x = Except.ok (v.1, v.2) := by
      simp [accumStep, hv, exceptOkBind]
    rw [h2, exceptOkBind, runBatch_shift g l (v.1, v.2), hl]
    simp [Except.map, hv, okValue, List.flatMap_cons]

theorem iteOk {ε α : Type} (c : Prop) [Decidable c] (a b : α) :
    ∃ v, (if c then Except.ok a else Except.ok b : Except ε α) = Except.ok v :=
  ⟨if c then a else b, by by_cases h : c <;> simp [h]⟩

theorem saveImageRep_ok (env : Env) (cfg : Config) (rep : Rep) (fp : String)
    (fmt : OutputFormat) (h : fmt ≠ OutputFormat.pdf) :
    ∃ v, saveImageRep env cfg (some rep) (some fp) (some fmt) = Except.ok v := by
  cases fmt with
  | pdf => exact absurd rfl h
  | png =>
    simp only [saveImageRep, typeMap]
    exact iteOk _ _ _
  | jpeg =>
    simp only [saveImageRep, typeMap]
    exact iteOk _ _ _
  | tiff =>
    simp only [saveImageRep, typeMap]
    exact iteOk _ _ _

theorem formatStep_ok (env : Env) (cfg : Config) (ts : String) (i : Nat)
    (rep : Rep) (fmt : OutputFormat) :
    ∃ v, formatStep env cfg ts i rep fmt = Except.ok v := by
  by_cases h : fmt = OutputFormat.pdf
  · exact ⟨([], []), by simp [formatStep, h]⟩
  · obtain ⟨v, hv⟩ :=
      saveImageRep_ok env cfg rep (pageFilename cfg ts (i + 1) fmt.value) fmt h
    exact ⟨(if v.1 then [pageFilename cfg ts (i + 1) fmt.value] else [], v.2),
      by simp [formatStep, h, hv, exceptOkBind]⟩

theorem savePage_ok (env : Env) (cfg : Config) (ts : String) (i : Nat)
    (image : NSImage) : ∃ v, savePage env cfg ts i image = Except.ok v := by
  unfold savePage
  cases getBestImageRep (some image) with
  | none => exact ⟨([], []), rfl⟩
  | some bestRep =>
    exact ⟨_, runBatch_flat _ _ (fun fmt _ => formatStep_ok env cfg ts i bestRep fmt)⟩

theorem pageStep_ok (env : Env) (cfg : Config) (ts : String) (p : Nat × NSImage) :
    ∃ v, pageStep env cfg ts p = Except.ok v :=
  savePage_ok env cfg ts p.1 p.2

theorem saveAll_run (env : Env) (cfg : Config) (ts : String) (st : CaptureState)
    (h : (st.captured_images.isEmpty && !isTruthy st.captured_data) = false) :
    saveAllDocuments env cfg ts st = Except.ok
      { files_saved := (pdfSaveStep env cfg ts st).1 ++
          st.captured_images.enum.flatMap (pageFiles env cfg ts),
        status := some ("Saved " ++ toString ((pdfSaveStep env cfg ts st).1 ++
          st.captured_images.enum.flatMap (pageFiles env cfg ts)).length ++ " file(s)"),
        effects := (pdfSaveStep env cfg ts st).2 ++
          st.captured_images.enum.flatMap (pageEffects env cfg ts) } := by
  have hb : runBatch (pageStep env cfg ts) st.captured_images.enum = Except.ok
      (st.captured_images.enum.flatMap (pageFiles env cfg ts),
       st.captured_images.enum.flatMap (pageEffects env cfg ts)) := by
    rw [runBatch_flat _ _ (fun p _ => pageStep_ok env cfg ts p)]
    rfl
  unfold saveAllDocuments
  rw [h]
  simp only [Bool.false_eq_true, if_false]
  rw [show (do
      let pdfPart := pdfSaveStep env cfg ts st
      let pagePart ← runBatch (pageStep env cfg ts) st.captured_images.enum
      let files := pdfPart.1 ++ pagePart.1
      pure { files_saved := files,
             status := some ("Saved " ++ toString files.length ++ " file(s)"),
             effects := pdfPart.2 ++ pagePart.2 } :
      Except Unit SaveOutcome) =
    runBatch (pageStep env cfg ts) st.captured_images.enum >>= (fun pagePart =>
      pure { files_saved := (pdfSaveStep env cfg ts st).1 ++ pagePart.1,
             status := some ("Saved " ++
               toString ((pdfSaveStep env cfg ts st).1 ++ pagePart.1).length ++ " file(s)"),
             effects := (pdfSaveStep env cfg ts st).2 ++ pagePart.2 }) from rfl]
  rw [hb, exceptOkBind]
  rfl

theorem convertFold (env : Env) (cfg : Config) (ts : String)
    (l : List (Nat × PdfPage)) (acc : List String × List Effect) :
    l.foldl (fun acc p =>
        let c := convertPage env cfg ts p.1 p.2
        (acc.1 ++ c.1, acc.2 ++ c.2)) acc =
      (acc.1 ++ l.flatMap (fun p => (convertPage env cfg ts p.1 p.2).1),
       acc.2 ++ l.flatMap (fun p => (convertPage env cfg ts p.1 p.2).2)) := by
  induction l generalizing acc with
  | nil => simp
  | cons x l ih => simp [ih, List.append_assoc]

theorem convert_run (env : Env) (cfg : Config) (ts : String) (st : CaptureState)
    (d : Bytes) (pages : List PdfPage) (hd : st.captured_data = some d)
    (hne : d.isEmpty = false) (hp : env.parsePdf d = some pages) :
    convertPdfToPng env cfg ts st =
      { files_saved := pages.enum.flatMap (fun p => (convertPage env cfg ts p.1 p.2).1),
        status :=
          if (pages.enum.flatMap (fun p => (convertPage env cfg ts p.1 p.2).1)).isEmpty then
            some "Error: No pages could be converted"
          else
            some ("Successfully converted " ++
              toString (pages.enum.flatMap
                (fun p => (convertPage env cfg ts p.1 p.2).1)).length ++ " page(s) to PNG"),
        effects := pages.enum.flatMap (fun p => (convertPage env cfg ts p.1 p.2).2) } := by
  unfold convertPdfToPng
  rw [hd]
  simp only [hne, Bool.false_eq_true, if_false, hp]
  rw [convertFold]
  simp only [List.nil_append]
  split
  · rfl
  · rfl

theorem probeLoop_found (pb : Pasteboard) (l : List String) (t : String)
    (h : l.find? (hitType pb) = some t) :
    probeLoop pb l =
      (pb.dataForType t,
       (l.takeWhile (fun u => !hitType pb u)).filter
         (fun u => decide (u ∈ pb.types)) ++ [t]) := by
  induction l with
  | nil => simp at h
  | cons u rest ih =>
    by_cases hu : hitType pb u = true
    · rw [List.find?_cons_of_pos _ hu] at h
      injection h with h
      subst h
      have h1 := hu
      simp only [hitType, Bool.and_eq_true, decide_eq_true_eq, Bool.not_eq_true'] at h1
      have hne : pb.dataForType u ≠ [] := by
        intro hc
        rw [hc] at h1
        simp at h1
      simp [probeLoop, h1.1, hne, List.takeWhile_cons, hu]
    · have hfalse : hitType pb u = false := by simpa using hu
      rw [List.find?_cons_of_neg _ hu] at h
      have ihr := ih h
      by_cases hmem : u ∈ pb.types
      · have hemp : pb.dataForType u = [] := by
          have h2 := hfalse
          simp only [hitType, hmem, decide_eq_true_eq, Bool.and_eq_false_iff,
            Bool.not_eq_false', decide_eq_false_iff_not] at h2
          rcases h2 with h2 | h2
          · simp at h2
          · simpa using h2
        simp [probeLoop, hmem, hemp, ihr, List.takeWhile_cons, hfalse]
      · simp [probeLoop, hmem, ihr, List.takeWhile_cons, hfalse, hitType]

theorem foldl_bestStep (reps : List Rep) :
    ∀ (b : Option Rep) (m : Nat),
      reps.foldl bestStep (b, m) =
        if m < maxBitmapArea reps then
          (reps.find? (fun r => r.isBitmap && (Rep.area r == maxBitmapArea reps)),
            maxBitmapArea reps)
        else (b, m) := by
  induction reps with
  | nil =>
    intro b m
    simp [maxBitmapArea]
  | cons r rest ih =>
    intro b m
    rw [List.foldl_cons]
    by_cases hb : r.isBitmap
    · have hmax : maxBitmapArea (r :: rest) = max (Rep.area r) (maxBitmapArea rest) := by
        simp [maxBitmapArea, hb]
    -- area of r strictly beats the accumulator or not
      by_cases h1 : Rep.area r > m
      · have h1p : r.pixelsWide * r.pixelsHigh > m := h1
        have hstep : bestStep (b, m) r = (some r, Rep.area r) := by
          simp only [bestStep, hb, if_true]
          rw [if_pos h1p]
          rfl
        rw [hstep, ih (some r) (Rep.area r), hmax]
        by_cases h2 : Rep.area r < maxBitmapArea rest
        · rw [if_pos h2, if_pos (Nat.lt_of_lt_of_le (by omega) (Nat.le_max_right _ _)),
            Nat.max_eq_right (Nat.le_of_lt h2),
            List.find?_cons_of_neg _ (by simp [hb]; omega)]
        · rw [if_neg h2, if_pos (Nat.lt_of_lt_of_le h1 (Nat.le_max_left _ _)),
            Nat.max_eq_left (by omega),
            List.find?_cons_of_pos _ (by simp [hb])]
      · have h1p : ¬r.pixelsWide * r.pixelsHigh > m := h1
        have hstep : bestStep (b, m) r = (b, m) := by
          simp only [bestStep, hb, if_true]
          rw [if_neg h1p]
        rw [hstep, ih b m, hmax]
        by_cases h3 : m < maxBitmapArea rest
        · rw [if_pos h3, if_pos (Nat.lt_of_lt_of_le h3 (Nat.le_max_right _ _)),
            Nat.max_eq_right (by omega),
            List.find?_cons_of_neg _ (by simp [hb]; omega)]
        · rw [if_neg h3,
            if_neg (by rw [Nat.not_lt, Nat.max_le]; constructor <;> omega)]
    · have hstep : bestStep (b, m) r = (b, m) := by simp [bestStep, hb]
      have hmax2 : maxBitmapArea (r :: rest) = maxBitmapArea rest := by
        simp [maxBitmapArea, hb]
      rw [hstep, ih b m, hmax2, List.find?_cons_of_neg _ (by simp [hb])]

theorem natDigitsAux_ne_nil (fuel n : Nat) (h : 1 ≤ fuel) : natDigitsAux fuel n ≠ [] := by
  cases fuel with
  | zero => omega
  | succ f =>
    simp only [natDigitsAux]
    split
    · simp
    · simp

theorem pad2_length (n : Nat) : 2 ≤ (pad2 n).length := by
  unfold pad2 natDigits
  by_cases h : n < 10
  · simp only [h, if_true]
    show 2 ≤ ('0' :: natDigitsAux (n + 1) n).length
    have h1 : 0 < (natDigitsAux (n + 1) n).length :=
      List.length_pos.mpr (natDigitsAux_ne_nil _ _ (by omega))
    simp only [List.length_cons]
    omega
  · simp only [h, if_false]
    show 2 ≤ (natDigitsAux (n + 1) n).length
    rw [show natDigitsAux (n + 1) n =
        natDigitsAux n (n / 10) ++ [digitChar (n % 10)] from by
      simp [natDigitsAux, h]]
    have h1 : 0 < (natDigitsAux n (n / 10)).length :=
      List.length_pos.mpr (natDigitsAux_ne_nil _ _ (by omega))
    simp only [List.length_append, List.length_cons, List.length_nil]
    omega

theorem digitChar_toNat : ∀ d < 10, (digitChar d).toNat = 48 + d := by
  decide

theorem foldl_digitsVal (fuel : Nat) :
    ∀ n v, n + 1 ≤ fuel →
      (natDigitsAux fuel n).foldl (fun a c => a * 10 + (c.toNat - 48)) v =
        v * 10 ^ (natDigitsAux fuel n).length + n := by
  induction fuel with
  | zero =>
    intro n v h
    omega
  | succ f ih =>
    intro n v h
    by_cases hn : n < 10
    · rw [show natDigitsAux (f + 1) n = [digitChar n] from by simp [natDigitsAux, hn]]
      simp only [List.foldl_cons, List.foldl_nil, List.length_cons, List.length_nil]
      rw [digitChar_toNat n hn, Nat.add_sub_cancel_left, pow_one]
    · rw [show natDigitsAux (f + 1) n =
          natDigitsAux f (n / 10) ++ [digitChar (n % 10)] from by simp [natDigitsAux, hn]]
      rw [List.foldl_append, ih (n / 10) v (by omega)]
      simp only [List.foldl_cons, List.foldl_nil, List.length_append, List.length_cons,
        List.length_nil]
      rw [digitChar_toNat (n % 10) (Nat.mod_lt _ (by omega)), Nat.add_sub_cancel_left]
      calc (v * 10 ^ (natDigitsAux f (n / 10)).length + n / 10) * 10 + n % 10
          = v * (10 ^ (natDigitsAux f (n / 10)).length * 10) +
              (10 * (n / 10) + n % 10) := by ring
        _ = v * 10 ^ ((natDigitsAux f (n / 10)).length + 0 + 1) + n := by
            rw [Nat.div_add_mod, pow_succ]

theorem pad2_val (k : Nat) :
    (pad2 k).data.foldl (fun a c => a * 10 + (c.toNat - 48)) 0 = k := by
  unfold pad2
  by_cases hk : k < 10
  · simp only [hk, if_true]
    show List.foldl (fun a c => a * 10 + (c.toNat - 48)) 0 ('0' :: natDigits k) = k
    rw [List.foldl_cons]
    rw [show (0 * 10 + (('0').toNat - 48)) = 0 from rfl]
    have hv := foldl_digitsVal (k + 1) k 0 (le_refl _)
    unfold natDigits
    simpa using hv
  · simp only [hk, if_false]
    show List.foldl (fun a c => a * 10 + (c.toNat - 48)) 0 (natDigits k) = k
    have hv := foldl_digitsVal (k + 1) k 0 (le_refl _)
    unfold natDigits
    simpa using hv

theorem pad2_inj (n m : Nat) (h : pad2 n = pad2 m) : n = m := by
  have hd : (pad2 n).data = (pad2 m).data := by rw [h]
  rw [← pad2_val n, ← pad2_val m, hd]

theorem pdfSaveStep_files (env : Env) (cfg : Config) (ts : String)
    (st : CaptureState) (f : String) (h : f ∈ (pdfSaveStep env cfg ts st).1) :
    f = docFilename cfg ts := by
  have hsub : (pdfSaveStep env cfg ts st).1 = [] ∨
      (pdfSaveStep env cfg ts st).1 = [docFilename cfg ts] := by
    unfold pdfSaveStep
    rcases st.captured_data with _ | d
    · left
      rfl
    · dsimp only
      repeat' split
      all_goals simp
  rcases hsub with hs | hs
  all_goals rw [hs] at h
  · simp at h
  · simp at h
    exact h

theorem formatStep_files (env : Env) (cfg : Config) (ts : String) (i : Nat)
    (rep : Rep) (fmt : OutputFormat) (f : String)
    (h : f ∈ (okValue ([], []) (formatStep env cfg ts i rep fmt)).1) :
    fmt ≠ OutputFormat.pdf ∧ f = pageFilename cfg ts (i + 1) fmt.value := by
  by_cases hp : fmt = OutputFormat.pdf
  · subst hp
    simp [formatStep, okValue] at h
  · obtain ⟨v, hv⟩ :=
      saveImageRep_ok env cfg rep (pageFilename cfg ts (i + 1) fmt.value) fmt hp
    have hfs : formatStep env cfg ts i rep fmt =
        Except.ok (if v.1 then [pageFilename cfg ts (i + 1) fmt.value] else [], v.2) := by
      simp [formatStep, hp, hv, exceptOkBind]
    rw [hfs] at h
    simp only [okValue] at h
    split at h
    · simp at h
      exact ⟨hp, h⟩
    · simp at h

theorem pageFiles_shape (env : Env) (cfg : Config) (ts : String)
    (p : Nat × NSImage) (f : String) (h : f ∈ pageFiles env cfg ts p) :
    ∃ fmt, fmt ∈ cfg.output_formats ∧ fmt ≠ OutputFormat.pdf ∧
      f = pageFilename cfg ts (p.1 + 1) fmt.value := by
  unfold pageFiles pageStep savePage at h
  rcases hgb : getBestImageRep (some p.2) with _ | rep
  all_goals rw [hgb] at h
  all_goals dsimp only at h
  · simp [okValue] at h
  · rw [runBatch_flat _ _ (fun fmt _ => formatStep_ok env cfg ts p.1 rep fmt)] at h
    simp only [okValue] at h
    rw [List.mem_flatMap] at h
    obtain ⟨fmt, hfmt, hf⟩ := h
    obtain ⟨hne, heq⟩ := formatStep_files env cfg ts p.1 rep fmt f hf
    exact ⟨fmt, hfmt, hne, heq⟩

theorem convertPage_files (env : Env) (cfg : Config) (ts : String) (i : Nat)
    (page : PdfPage) (f : String) (h : f ∈ (convertPage env cfg ts i page).1) :
    f = pageFilename cfg ts (i + 1) "png" := by
  have hsub : (convertPage env cfg ts i page).1 = [] ∨
      (convertPage env cfg ts i page).1 = [pageFilename cfg ts (i + 1) "png"] := by
    unfold convertPage
    dsimp only
    repeat' split
    all_goals simp
  rcases hsub with hs | hs
  all_goals rw [hs] at h
  · simp at h
  · simp at h
    exact h

theorem convert_files_shape (env : Env) (cfg : Config) (ts : String)
    (st : CaptureState) (f : String)
    (h : f ∈ (convertPdfToPng env cfg ts st).files_saved) :
    ∃ n, 1 ≤ n ∧ f = pageFilename cfg ts n "png" := by
  unfold convertPdfToPng at h
  revert h
  rcases st.captured_data with _ | d
  · intro h
    simp at h
  · dsimp only
    split
    · intro h
      simp at h
    · rcases env.parsePdf d with _ | pages
      · intro h
        simp at h
      · dsimp only
        rw [convertFold]
        dsimp only
        split
        all_goals intro h
        all_goals simp only [List.nil_append] at h
        all_goals rw [List.mem_flatMap] at h
        all_goals obtain ⟨p, hpq, hf⟩ := h
        all_goals exact ⟨p.1 + 1, by omega, convertPage_files env cfg ts p.1 p.2 f hf⟩

/-- A concrete platform environment for closed test theorems: nothing parses,
nothing decodes, encoding yields no bytes, writes succeed. -/
def envNoParse : Env :=
  { parsePdf := fun _ => none
    renderReps := fun _ _ => []
    decodeImage := fun _ => none
    tiffRep := fun _ => []
    imageRepFromData := fun _ => none
    encode := fun _ _ _ => []
    writeFile := fun _ _ => true }

/-- A concrete configuration for closed test theorems. -/
def cfgA : Config :=
  { output_dir := "out"
    filenameStem := "scan"
    output_formats := [OutputFormat.pdf, OutputFormat.png]
    jpeg_quality := 19 / 20
    resolution_scale := 4 }

/-- The empty capture state. -/
def stEmpty : CaptureState := { captured_data := none, captured_images := [] }

/-- A pasteboard offering only the vendor PDF type with bytes `[7]`. -/
def pbPdfOnly : Pasteboard :=
  { types := ["com.adobe.pdf"]
    dataForType := fun t => if t = "com.adobe.pdf" then [7] else [] }

/-- A pasteboard with no types at all. -/
def emptyPasteboard : Pasteboard := { types := [], dataForType := fun _ => [] }

/-- A bitmap representation with 2 x 3 pixels. -/
def repA : Rep := { isBitmap := true, pixelsWide := 2, pixelsHigh := 3, tag := 0 }

/-- An image holding the single representation `repA`. -/
def imgOneRep : NSImage := { size := { width := 1, height := 1 }, reps := [repA] }

/-- A captured state holding raw document bytes and no pages. -/
def stDocNoPages : CaptureState := { captured_data := some [1], captured_images := [] }

/-- A captured state holding raw document bytes and one page. -/
def stDocOnePage : CaptureState :=
  { captured_data := some [1], captured_images := [imgOneRep] }

/-- A concrete environment whose encoder always yields bytes `[9]` and whose
writes succeed, so per-page files actually get persisted. -/
def envEncodeOk : Env :=
  { parsePdf := fun _ => none
    renderReps := fun _ _ => []
    decodeImage := fun _ => none
    tiffRep := fun _ => []
    imageRepFromData := fun _ => none
    encode := fun _ _ _ => [9]
    writeFile := fun _ _ => true }

/-- C4: at the start of every capture attempt both components of the capture
state are reset before any new data is ingested, so the outcome of a capture
(success flag, new state, effects, fetched types) is entirely independent of
the previously held state — capturing B after A leaves zero residue from A,
whether or not B succeeds — and a capture that finds nothing leaves the state
empty. -/
theorem c4_capture_reset (env : Env) (cfg : Config) (ts : String)
    (pb : Pasteboard) (st1 st2 : CaptureState) :
    readSelectionFromPasteboard env cfg ts st1 pb =
        readSelectionFromPasteboard env cfg ts st2 pb ∧
    (readSelectionFromPasteboard env cfg ts st1 emptyPasteboard).state =
        { captured_data := none, captured_images := [] } := by
  constructor
  · rfl
  · rfl

/-- C5 counterexample: the claim states the selector returns none only when
there are no representations or none is raster-typed; but on an image whose
single representation IS raster-typed (with zero pixel area) the source
returns `None`, because the scan starts from `max_pixels = 0` and requires a
strictly larger pixel count. -/
theorem c5_counterexample :
    getBestImageRep (some (NSImage.mk (NSSize.mk 0 0) [Rep.mk true 0 5 0])) = none ∧
    (Rep.mk true 0 5 0).isBitmap = true := by
  constructor
  · rfl
  · rfl

/-- C5 (amended): the representation selector returns none when the image has
no representation, none is raster-typed, or every raster-typed representation
has zero pixel area; otherwise it returns the first-encountered raster-typed
representation of maximal (positive) pixel area — a stable, order-preserving
scan, deterministic in the representation list (it is a pure function). -/
theorem c5_selector_first_max (image : NSImage) :
    getBestImageRep (some image) =
      if 0 < maxBitmapArea image.reps then
        image.reps.find? (fun r => r.isBitmap && (Rep.area r == maxBitmapArea image.reps))
      else none := by
  show (image.reps.foldl bestStep (none, 0)).1 = _
  rw [foldl_bestStep image.reps none 0]
  by_cases h : 0 < maxBitmapArea image.reps
  · rw [if_pos h, if_pos h]
  · rw [if_neg h, if_neg h]

/-- C2 counterexample: on the degraded path — document bytes present on the
pasteboard but `PDFDocument` fails to parse them — the capture ingestion
performs file I/O: it writes the raw bytes to disk via `_saveRawPDF` while
still reporting a successful capture.  This refutes the claim that the
operation performs no file I/O for any combination of types and bytes. -/
theorem c2_counterexample :
    (readSelectionFromPasteboard envNoParse cfgA "T" stEmpty pbPdfOnly).effects =
      [Effect.fileWrite (docFilename cfgA "T") [7]] ∧
    (readSelectionFromPasteboard envNoParse cfgA "T" stEmpty pbPdfOnly).success =
      true := by
  constructor
  · rfl
  · rfl

/-- C2 (amended): the capture ingestion performs no file I/O on any path
except exactly the degraded one — when the document probe yields non-empty
bytes that fail to parse as a container, the raw bytes are written to the
document-artifact path; on every other combination of available types and
fetched bytes the effect trace is empty. -/
theorem c2_capture_file_io (env : Env) (cfg : Config) (ts : String)
    (st : CaptureState) (pb : Pasteboard) :
    (readSelectionFromPasteboard env cfg ts st pb).effects =
      if (probeLoop pb pdfTypes).1.isEmpty = false ∧
          env.parsePdf (probeLoop pb pdfTypes).1 = none then
        [Effect.fileWrite (docFilename cfg ts) (probeLoop pb pdfTypes).1]
      else [] := by
  unfold readSelectionFromPasteboard
  by_cases h : (probeLoop pb pdfTypes).1.isEmpty
  · simp [h]
  · have hf : (probeLoop pb pdfTypes).1.isEmpty = false := by simpa using h
    rcases hp : env.parsePdf (probeLoop pb pdfTypes).1 with _ | pages
    · simp [hf, hp]
    · simp [hf, hp]

/-- C8: when some alias in the prioritized document-type list
`['com.adobe.pdf', NSPasteboardTypePDF, 'public.pdf']` is present with
non-empty bytes, the first such alias wins: its bytes become the captured
document payload, the fetched-type trace stops exactly at that alias (the
remaining aliases are not probed), and every fetched type is a document
alias — the raster-image probe list is skipped entirely. -/
theorem c8_pdf_alias_priority (env : Env) (cfg : Config) (ts : String)
    (st : CaptureState) (pb : Pasteboard) (t : String)
    (h : pdfTypes.find? (hitType pb) = some t) :
    (readSelectionFromPasteboard env cfg ts st pb).state.captured_data =
        some (pb.dataForType t) ∧
    (readSelectionFromPasteboard env cfg ts st pb).fetched =
      (pdfTypes.takeWhile (fun u => !hitType pb u)).filter
        (fun u => decide (u ∈ pb.types)) ++ [t] ∧
    ∀ u ∈ (readSelectionFromPasteboard env cfg ts st pb).fetched, u ∈ pdfTypes := by
  have hp := probeLoop_found pb pdfTypes t h
  have hne : (probeLoop pb pdfTypes).1.isEmpty = false := by
    rw [hp]
    have ht := List.find?_some h
    simp only [hitType, Bool.and_eq_true, Bool.not_eq_true'] at ht
    exact ht.2
  have hout : (readSelectionFromPasteboard env cfg ts st pb).state.captured_data =
        some (probeLoop pb pdfTypes).1 ∧
      (readSelectionFromPasteboard env cfg ts st pb).fetched =
        (probeLoop pb pdfTypes).2 := by
    unfold readSelectionFromPasteboard
    rcases hpp : env.parsePdf (probeLoop pb pdfTypes).1 with _ | pages
    · simp [hne, hpp]
    · simp [hne, hpp]
  refine ⟨?_, ?_, ?_⟩
  · rw [hout.1, hp]
  · rw [hout.2, hp]
  · intro u hu
    rw [hout.2, hp] at hu
    simp only at hu
    rcases List.mem_append.mp hu with hu | hu
    · exact (List.takeWhile_sublist _).subset (List.mem_of_mem_filter hu)
    · rw [List.mem_singleton] at hu
      subst hu
      exact List.mem_of_find?_eq_some h

/-- Witness for C8: a concrete pasteboard where only the 'public.pdf' alias
is present with non-empty bytes. -/
def pbPublicPdf : Pasteboard :=
  { types := ["junk", "public.pdf"]
    dataForType := fun t => if t = "public.pdf" then [3] else [] }

theorem c8_witness :
    (readSelectionFromPasteboard envNoParse cfgA "T" stEmpty pbPublicPdf).state.captured_data =
        some (pbPublicPdf.dataForType "public.pdf") ∧
    (readSelectionFromPasteboard envNoParse cfgA "T" stEmpty pbPublicPdf).fetched =
      (pdfTypes.takeWhile (fun u => !hitType pbPublicPdf u)).filter
        (fun u => decide (u ∈ pbPublicPdf.types)) ++ ["public.pdf"] ∧
    ∀ u ∈ (readSelectionFromPasteboard envNoParse cfgA "T" stEmpty pbPublicPdf).fetched,
      u ∈ pdfTypes :=
  c8_pdf_alias_priority envNoParse cfgA "T" stEmpty pbPublicPdf "public.pdf" (by rfl)

/-- A concrete environment whose parser yields one page of bounds 5/2 x 4. -/
def envHalfPage : Env :=
  { parsePdf := fun _ => some [PdfPage.mk (5 / 2) 4]
    renderReps := fun _ _ => []
    decodeImage := fun _ => none
    tiffRep := fun _ => []
    imageRepFromData := fun _ => none
    encode := fun _ _ _ => []
    writeFile := fun _ _ => true }

/-- The test configuration at resolution scale 1. -/
def cfgScale1 : Config := { cfgA with resolution_scale := 1 }

/-- C3 counterexample: a page with media-box width 5/2 rendered at scale 1
yields a canvas width of exactly 5/2 — the code applies no rounding — while
the claimed `round(w*s)` is the integer 3; so the rendered dimensions do not
equal `(round(w*s), round(h*s))`. -/
theorem c3_counterexample :
    ((readSelectionFromPasteboard envHalfPage cfgScale1 "T" stEmpty
        pbPdfOnly).state.captured_images.map (fun im => im.size.width)) = [5 / 2 * 1] ∧
    ((5 : ℚ) / 2 * 1) = 5 / 2 ∧
    ((5 : ℚ) / 2 * 1) ≠ ((round ((5 : ℚ) / 2 * 1) : ℤ) : ℚ) := by
  refine ⟨rfl, by norm_num, by norm_num [round_eq]⟩

/-- C3 (amended): for every page of a successfully parsed document container
and every scale factor, the i-th rendered canvas has dimensions exactly
`(w*s, h*s)` where `(w, h)` is the page's bounding box — the identical scale
factor multiplies both axes, no rounding is applied in this code (integer
pixel rounding, if any, happens in the platform imaging layer), and the
dimensions are a deterministic function of (bounds, s) alone. -/
theorem c3_render_dimensions (env : Env) (cfg : Config) (ts : String)
    (st : CaptureState) (pb : Pasteboard) (pages : List PdfPage) (i : Nat)
    (page : PdfPage)
    (hne : (probeLoop pb pdfTypes).1.isEmpty = false)
    (hp : env.parsePdf (probeLoop pb pdfTypes).1 = some pages)
    (hpage : pages.get? i = some page) :
    (readSelectionFromPasteboard env cfg ts st pb).state.captured_images.get? i =
      some (NSImage.mk
        (NSSize.mk (page.width * cfg.resolution_scale)
          (page.height * cfg.resolution_scale))
        (env.renderReps page cfg.resolution_scale)) := by
  unfold readSelectionFromPasteboard
  simp only [hne, Bool.false_eq_true, if_false, hp]
  rw [List.get?_map, hpage]
  rfl

theorem c3_witness :
    (readSelectionFromPasteboard envHalfPage cfgScale1 "T" stEmpty
        pbPdfOnly).state.captured_images.get? 0 =
      some (NSImage.mk
        (NSSize.mk ((PdfPage.mk (5 / 2) 4).width * cfgScale1.resolution_scale)
          ((PdfPage.mk (5 / 2) 4).height * cfgScale1.resolution_scale))
        (envHalfPage.renderReps (PdfPage.mk (5 / 2) 4) cfgScale1.resolution_scale)) :=
  c3_render_dimensions envHalfPage cfgScale1 "T" stEmpty pbPdfOnly
    [PdfPage.mk (5 / 2) 4] 0 (PdfPage.mk (5 / 2) 4) rfl rfl rfl

/-- An environment whose encoder output depends on the compression factor it
receives, exhibiting that the JPEG path forwards the configured quality. -/
def envQualitySensitive : Env :=
  { parsePdf := fun _ => none
    renderReps := fun _ _ => []
    decodeImage := fun _ => none
    tiffRep := fun _ => []
    imageRepFromData := fun _ => none
    encode := fun _ props _ =>
      match props with
      | some q => if q = 0 then [1] else [2]
      | none => [0]
    writeFile := fun _ _ => true }

/-- C7: per-page encoding applies the configured quality factor only for the
lossy (JPEG) kind and ignores it for PNG and TIFF: for PNG/TIFF the
properties dictionary stays empty, so two runs differing only in the
configured `jpeg_quality` return the same result and write identical bytes;
for JPEG the configured factor is forwarded to the encoder, so a
quality-sensitive encoder produces different bytes for different factors. -/
theorem c7_quality_only_jpeg :
    (∀ (env : Env) (cfg : Config) (rep : Rep) (fp : String) (fmt : OutputFormat)
        (q1 q2 : ℚ), fmt = OutputFormat.png ∨ fmt = OutputFormat.tiff →
      saveImageRep env { cfg with jpeg_quality := q1 } (some rep) (some fp) (some fmt) =
        saveImageRep env { cfg with jpeg_quality := q2 } (some rep) (some fp) (some fmt)) ∧
    okValue (false, []) (saveImageRep envQualitySensitive { cfgA with jpeg_quality := 0 }
        (some repA) (some "f.jpeg") (some OutputFormat.jpeg)) ≠
      okValue (false, []) (saveImageRep envQualitySensitive { cfgA with jpeg_quality := 1 }
        (some repA) (some "f.jpeg") (some OutputFormat.jpeg)) := by
  constructor
  · rintro env cfg rep fp fmt q1 q2 (rfl | rfl) <;> rfl
  · decide

theorem c7_witness :
    saveImageRep envQualitySensitive { cfgA with jpeg_quality := 0 } (some repA)
        (some "p.png") (some OutputFormat.png) =
      saveImageRep envQualitySensitive { cfgA with jpeg_quality := 1 } (some repA)
        (some "p.png") (some OutputFormat.png) :=
  c7_quality_only_jpeg.1 envQualitySensitive cfgA repA "p.png" OutputFormat.png 0 1
    (Or.inl rfl)

/-- C9: the convert operation is oblivious to the configured output-format
set and JPEG quality — changing them changes nothing about its result
(files written, bytes, status), while the save operation does depend on the
format set. -/
theorem c9_convert_ignores_format_config :
    (∀ (env : Env) (cfg : Config) (ts : String) (st : CaptureState)
        (fmts : List OutputFormat) (q : ℚ),
      convertPdfToPng env { cfg with output_formats := fmts, jpeg_quality := q } ts st =
        convertPdfToPng env cfg ts st) ∧
    okValue (SaveOutcome.mk [] none [])
        (saveAllDocuments envNoParse { cfgA with output_formats := [OutputFormat.pdf] }
          "T" stDocNoPages) ≠
      okValue (SaveOutcome.mk [] none [])
        (saveAllDocuments envNoParse { cfgA with output_formats := [] } "T"
          stDocNoPages) := by
  constructor
  · intro env cfg ts st fmts q
    cases cfg
    rfl
  · decide

/-- C10: the per-page encoder returns False without raising whenever its
representation, path, or format argument is missing; it raises `KeyError`
(modelled `Except.error ()`) for the PDF kind, which is absent from its
format table; and since every call site in the save loop skips the PDF kind
before invoking it, no save invocation ever reaches that error branch — the
save operation always returns a result. -/
theorem c10_pdf_branch_unreachable :
    (∀ (env : Env) (cfg : Config) (fp : Option String) (fmt : Option OutputFormat),
      saveImageRep env cfg none fp fmt = Except.ok (false, [])) ∧
    (∀ (env : Env) (cfg : Config) (rep : Option Rep) (fmt : Option OutputFormat),
      saveImageRep env cfg rep none fmt = Except.ok (false, [])) ∧
    (∀ (env : Env) (cfg : Config) (rep : Option Rep) (fp : Option String),
      saveImageRep env cfg rep fp none = Except.ok (false, [])) ∧
    (∀ (env : Env) (cfg : Config) (rep : Rep) (fp : String),
      saveImageRep env cfg (some rep) (some fp) (some OutputFormat.pdf) =
        Except.error ()) ∧
    (∀ (env : Env) (cfg : Config) (ts : String) (st : CaptureState),
      ∃ out, saveAllDocuments env cfg ts st = Except.ok out) := by
  refine ⟨?_, ?_, ?_, ?_, ?_⟩
  · intro env cfg fp fmt
    cases fp <;> cases fmt <;> rfl
  · intro env cfg rep fmt
    cases rep <;> cases fmt <;> rfl
  · intro env cfg rep fp
    cases rep <;> cases fp <;> rfl
  · intro env cfg rep fp
    rfl
  · intro env cfg ts st
    by_cases h : (st.captured_images.isEmpty && !isTruthy st.captured_data) = true
    · exact ⟨SaveOutcome.mk [] none [], by unfold saveAllDocuments; rw [if_pos h]⟩
    · exact ⟨_, saveAll_run env cfg ts st (by simpa using h)⟩

/-- C1 counterexample: with formats `[pdf, png]` and an encoder yielding no
bytes, saving a capture with zero pages and saving a capture with one page
(whose only format encoding fails) produce completely identical outcomes —
same file list, same status text, same writes — although the number of pages
attempted and failed differs (0 and 0 versus 1 and 1); so the session report
cannot contain pages_attempted or pages_failed counts, refuting that part of
the claim. -/
theorem c1_counterexample :
    saveAllDocuments envNoParse cfgA "T" stDocNoPages =
        saveAllDocuments envNoParse cfgA "T" stDocOnePage ∧
    stDocNoPages.captured_images.length = 0 ∧
    stDocOnePage.captured_images.length = 1 := by
  refine ⟨?_, rfl, rfl⟩
  rfl

/-- C1 (amended): every save or convert invocation attempts every page — each
page's contribution to the saved-file list is a function of that page alone,
concatenated in page order, so one page's encoding or write failure neither
prevents later pages from being attempted nor earlier successes from being
written; after the batch the session reports only the count of files written
(the report carries no pages_attempted or pages_failed counts). -/
theorem c1_batch_isolation_and_count_report :
    (∀ (env : Env) (cfg : Config) (ts : String) (st : CaptureState)
        (out : SaveOutcome),
      saveAllDocuments env cfg ts st = Except.ok out →
      (st.captured_images.isEmpty && !isTruthy st.captured_data) = false →
      out.files_saved = (pdfSaveStep env cfg ts st).1 ++
          st.captured_images.enum.flatMap (pageFiles env cfg ts) ∧
      out.status = some ("Saved " ++ toString out.files_saved.length ++ " file(s)")) ∧
    (∀ (env : Env) (cfg : Config) (ts : String) (st : CaptureState) (d : Bytes)
        (pages : List PdfPage),
      st.captured_data = some d → d.isEmpty = false → env.parsePdf d = some pages →
      (convertPdfToPng env cfg ts st).files_saved =
          pages.enum.flatMap (fun p => (convertPage env cfg ts p.1 p.2).1) ∧
      ((convertPdfToPng env cfg ts st).files_saved.isEmpty = false →
        (convertPdfToPng env cfg ts st).status =
          some ("Successfully converted " ++
            toString (convertPdfToPng env cfg ts st).files_saved.length ++
            " page(s) to PNG"))) := by
  constructor
  · intro env cfg ts st out hout hne
    rw [saveAll_run env cfg ts st hne] at hout
    injection hout with hout
    subst hout
    exact ⟨rfl, rfl⟩
  · intro env cfg ts st d pages hd hdne hp
    rw [convert_run env cfg ts st d pages hd hdne hp]
    refine ⟨rfl, ?_⟩
    intro hfe
    dsimp only at hfe ⊢
    rw [if_neg]
    intro hc2
    rw [hc2] at hfe
    simp at hfe

theorem c1_witness :
    (SaveOutcome.mk [docFilename cfgA "T"] (some "Saved 1 file(s)")
        [Effect.fileWrite (docFilename cfgA "T") [1]]).files_saved =
      (pdfSaveStep envNoParse cfgA "T" stDocNoPages).1 ++
        stDocNoPages.captured_images.enum.flatMap (pageFiles envNoParse cfgA "T") ∧
    (SaveOutcome.mk [docFilename cfgA "T"] (some "Saved 1 file(s)")
        [Effect.fileWrite (docFilename cfgA "T") [1]]).status =
      some ("Saved " ++ toString (SaveOutcome.mk [docFilename cfgA "T"]
        (some "Saved 1 file(s)")
        [Effect.fileWrite (docFilename cfgA "T") [1]]).files_saved.length ++
        " file(s)") :=
  c1_batch_isolation_and_count_report.1 envNoParse cfgA "T" stDocNoPages
    (SaveOutcome.mk [docFilename cfgA "T"] (some "Saved 1 file(s)")
      [Effect.fileWrite (docFilename cfgA "T") [1]])
    (by rfl) (by rfl)

/-- C6: within one save or convert invocation, every persisted file path is
`{dir}/{stem}_{ts}.pdf` for the whole-document artifact or
`{dir}/{stem}_{ts}_page{NN}.{ext}` (ext the value of a requested non-PDF
format for save, always "png" for convert) for per-page artifacts, where NN
is the 1-based index of the very page `p` that produced the file (`p.1 + 1`
for the enumerated page pair), zero-padded to at least two digits by an
injective padding — so distinct pages of a batch carry distinct number tokens
(01, 02, 03, ...) — and `ts` is the single timestamp string taken at the
start of the invocation and shared by every file of the batch: a batch's
filenames differ only in page number and extension. -/
theorem c6_filename_convention :
    (∀ (env : Env) (cfg : Config) (ts : String) (st : CaptureState)
        (out : SaveOutcome) (f : String),
      saveAllDocuments env cfg ts st = Except.ok out →
      f ∈ out.files_saved →
      f = docFilename cfg ts ∨
      ∃ p fmt, p ∈ st.captured_images.enum ∧ f ∈ pageFiles env cfg ts p ∧
        fmt ∈ cfg.output_formats ∧ fmt ≠ OutputFormat.pdf ∧
        f = pageFilename cfg ts (p.1 + 1) fmt.value) ∧
    (∀ (env : Env) (cfg : Config) (ts : String) (st : CaptureState)
        (d : Bytes) (pages : List PdfPage) (f : String),
      st.captured_data = some d → d.isEmpty = false → env.parsePdf d = some pages →
      f ∈ (convertPdfToPng env cfg ts st).files_saved →
      ∃ p, p ∈ pages.enum ∧ f ∈ (convertPage env cfg ts p.1 p.2).1 ∧
        f = pageFilename cfg ts (p.1 + 1) "png") ∧
    (∀ n, 2 ≤ (pad2 n).length) ∧
    (∀ n m, pad2 n = pad2 m → n = m) := by
  refine ⟨?_, ?_, pad2_length, pad2_inj⟩
  · intro env cfg ts st out f hout hf
    by_cases hne : (st.captured_images.isEmpty && !isTruthy st.captured_data) = true
    · unfold saveAllDocuments at hout
      rw [if_pos hne] at hout
      injection hout with hout
      subst hout
      simp at hf
    · rw [saveAll_run env cfg ts st (by simpa using hne)] at hout
      injection hout with hout
      subst hout
      dsimp only at hf
      rcases List.mem_append.mp hf with hf | hf
      · exact Or.inl (pdfSaveStep_files env cfg ts st f hf)
      · rw [List.mem_flatMap] at hf
        obtain ⟨p, hpmem, hfp⟩ := hf
        obtain ⟨fmt, hfmt, hnepdf, heq⟩ := pageFiles_shape env cfg ts p f hfp
        exact Or.inr ⟨p, fmt, hpmem, hfp, hfmt, hnepdf, heq⟩
  · intro env cfg ts st d pages f hd hdne hp hf
    rw [convert_run env cfg ts st d pages hd hdne hp] at hf
    dsimp only at hf
    rw [List.mem_flatMap] at hf
    obtain ⟨p, hpmem, hfp⟩ := hf
    exact ⟨p, hpmem, hfp, convertPage_files env cfg ts p.1 p.2 f hfp⟩

theorem c6_witness :
    pageFilename cfgA "T" 1 "png" = docFilename cfgA "T" ∨
    ∃ p fmt, p ∈ stDocOnePage.captured_images.enum ∧
      pageFilename cfgA "T" 1 "png" ∈ pageFiles envEncodeOk cfgA "T" p ∧
      fmt ∈ cfgA.output_formats ∧ fmt ≠ OutputFormat.pdf ∧
      pageFilename cfgA "T" 1 "png" = pageFilename cfgA "T" (p.1 + 1) fmt.value :=
  c6_filename_convention.1 envEncodeOk cfgA "T" stDocOnePage
    (SaveOutcome.mk [docFilename cfgA "T", pageFilename cfgA "T" 1 "png"]
      (some "Saved 2 file(s)")
      [Effect.fileWrite (docFilename cfgA "T") [1],
       Effect.fileWrite (pageFilename cfgA "T" 1 "png") [9]])
    (pageFilename cfgA "T" 1 "png") (by rfl) (by simp)

end IphoneScan
